import Mathlib

set_option maxHeartbeats 1000000

/-!
Verification development for the OpenMapping2JSON mapping-specification
compiler.  The Python sources under `src/` are shallowly embedded below:

* a pandas cell is the inductive `Cell` (a string, a `None`, or a float —
  `floatV true` is the `NaN` missing-value marker);
* a loaded mapping file is a `MappingFile`: its column headers plus its rows
  (`Row` carries exactly the fields the generators read; the `Default Value`
  column is read by no generator and is omitted);
* the external collaborators of `generate_source_schema_config` (key-vault +
  SQL introspection, and the JSON artifact store) are an `ExternalWorld`
  parameter; every consumer of a resolved source schema reads only its
  `columns` list, so a resolved schema is embedded as `List SchemaCol`;
* constant pass-through output fields (`domain`, `config_storage_account`,
  `key_vault_name`, the literal `"cura"` table paths) are omitted from the
  embedded output records since no input influences them;
* Python exceptions become `Except`: a `ValueError`/`KeyError`/`IndexError`/
  `AttributeError`/`TypeError` is an `Except.error`;
* the `Transformation Function` cell is encoded by the outcome of the only
  two observations the code makes of it: `none` = no non-empty string value
  (null, `NaN`, empty string or non-string), `some none` = a non-empty string
  on which `json.loads` raises `JSONDecodeError`, `some (some j)` = a
  non-empty string parsing to the JSON value `j`.
-/

namespace OpenMapping

/-- Value of one spreadsheet cell as pandas hands it to the generators: a
string, a null (`None`), or a float.  `isNan` records whether the float is the
`NaN` missing-value marker; in `cleanse_column_list` every float behaves the
same because the module never imports `math`. -/
inductive Cell where
  | str (s : String)
  | nullV
  | floatV (isNan : Bool)
deriving DecidableEq

/-- Whitespace characters removed by Python's `str.strip()` (the `str.split`
whitespace set). -/
def PY_WHITESPACE : List Char :=
  [' ', '\t', '\n', '\r', '\x0b', '\x0c', '\x1c', '\x1d', '\x1e', '\x1f',
   '\x85', '\u00a0', '\u1680', '\u2000', '\u2001', '\u2002', '\u2003',
   '\u2004', '\u2005', '\u2006', '\u2007', '\u2008', '\u2009', '\u200a',
   '\u2028', '\u2029', '\u202f', '\u205f', '\u3000']

def pyIsSpace (c : Char) : Bool := PY_WHITESPACE.contains c

/-- Python `s.strip()`: drop leading and trailing whitespace. -/
def pyStrip (s : String) : String :=
  ⟨((s.data.dropWhile pyIsSpace).reverse.dropWhile pyIsSpace).reverse⟩

/-- Python `s.lower()` (ASCII case folding; every string this program compares
a lowered value against is ASCII). -/
def pyLower (s : String) : String := ⟨s.data.map Char.toLower⟩

/-- The four characters `cleanse_column_list` deletes with chained
`str.replace(c, '')` calls: U+00A0, U+200B, U+2000, U+180E. -/
def INVISIBLE_CHARS : List Char := ['\u00A0', '\u200B', '\u2000', '\u180E']

def removeInvisible (s : String) : String :=
  ⟨s.data.filter (fun c => !INVISIBLE_CHARS.contains c)⟩

/-- First-occurrence-preserving deduplication, as in utils/functions.py:
`seen = set(); [x for x in l if not (x in seen or seen.add(x))]`. -/
def dedupFAux {α : Type} [DecidableEq α] (seen : List α) : List α → List α
  | [] => []
  | x :: xs => if x ∈ seen then dedupFAux seen xs else x :: dedupFAux (x :: seen) xs

def dedupF {α : Type} [DecidableEq α] (l : List α) : List α := dedupFAux [] l

def isFloatCell : Cell → Bool
  | .floatV _ => true
  | _ => false

def isNullCell : Cell → Bool
  | .nullV => true
  | _ => false

def getStr : Cell → Option String
  | .str s => some s
  | _ => none

/-- Steps 3 and 5 of `cleanse_column_list` applied to the surviving entries
(all of them strings at that point): delete the invisible characters from each
entry, then strip leading/trailing whitespace.  Step 4 (the
`col is not None` filter) is a no-op at this point: it runs only after the
`replace` step, which already raised `AttributeError` on any `None`. -/
def cleanse_steps (l : List Cell) : List String :=
  ((l.filterMap getStr).map removeInvisible).map pyStrip

/-- utils/functions.py `cleanse_column_list`.  The whole body runs inside a
`try` whose `except` returns `[]`.  A float entry reaches
`math.isnan(col)` and raises `NameError` because the module never imports
`math`; a `None` entry survives to `col.replace(...)` and raises
`AttributeError`; both exceptions are swallowed and the function returns `[]`.
Otherwise the steps are: drop `''` entries, delete the invisible characters,
strip whitespace, deduplicate keeping first occurrences. -/
def cleanse_column_list (l : List Cell) : List String :=
  if (l.filter (fun c => decide (c ≠ Cell.str ""))).any isFloatCell then []
  else if (l.filter (fun c => decide (c ≠ Cell.str ""))).any isNullCell then []
  else dedupF (cleanse_steps (l.filter (fun c => decide (c ≠ Cell.str ""))))

/-- Python `cleanse_column_list([x])[0]`: indexing the cleansed singleton;
`IndexError` when the cleansed list is empty. -/
def cleanse1 (c : Cell) : Except String String :=
  match (cleanse_column_list [c]).head? with
  | some s => Except.ok s
  | none => Except.error "IndexError: cleansed singleton is empty"

/-- maps.py `PANDAS_DATATYPE_MAP`. -/
def PANDAS_DATATYPE_MAP : List (String × String) :=
  [("smallint", "integer"), ("decimal", "double"), ("varchar", "string"),
   ("datetime", "timestamp"), ("int", "integer"), ("integer", "integer"),
   ("bigint", "long"), ("uniqueidentifier", "string"), ("date", "timestamp"),
   ("long", "long"), ("double", "double"), ("timestamp", "timestamp")]

/-- maps.py `TARGET_SOURCE_AREA_MAP`. -/
def TARGET_SOURCE_AREA_MAP : List (String × String) :=
  [("bronze", "landing-zone"), ("silver", "bronze"), ("gold", "silver")]

/-- maps.py `MAP_FILE_REQUIRED_COLUMNS_MAP`.  The Python dict literal writes
the key `'bronze'` twice; the second binding overwrites the first, so the
runtime dictionary has exactly these two keys and no entry at all for
`'silver'` or `'gold'`. -/
def MAP_FILE_REQUIRED_COLUMNS_MAP : List (String × List String) :=
  [("landing-zone",
    ["Source Table Name", "Source Column Name", "Target Table Name",
     "Target Column Name"]),
   ("bronze",
    ["Source Table Name", "Source Column Name", "Target Table Name",
     "Target Column Name", "Order By", "Partition By", "Is Business Key",
     "Data Type", "Default Value", "Transformation Function"])]

/-- JSON values, for the embedded `Transformation Function` objects and for
the `source` descriptor of a generated column mapping (a Python dict is
`Json.obj` with its insertion-ordered field list). -/
inductive Json where
  | obj (fields : List (String × Json))
  | arr (items : List Json)
  | str (s : String)
  | num (n : Int)
  | boolV (b : Bool)
  | nullJ

/-- One row of the loaded mapping DataFrame, with the fields the validators
and generators read.  `orderBy`/`partitionBy` hold the numeric `Order By` /
`Partition By` cells (`none` = null, which is what `.notnull()` filters on);
`tf` encodes the `Transformation Function` cell as described in the module
header.  The `Default Value` column is read by no generator. -/
structure Row where
  sourceTable : Cell
  sourceColumn : Cell
  targetTable : Cell
  targetColumn : Cell
  dataType : Cell
  orderBy : Option Int
  partitionBy : Option Int
  isBusinessKey : Cell
  tf : Option (Option Json)

/-- A loaded mapping file: the DataFrame's column headers and its rows. -/
structure MappingFile where
  headers : List String
  rows : List Row

/-- One `{name, type}` entry of a source or target schema. -/
structure SchemaCol where
  name : String
  type : String
deriving DecidableEq

/-- The per-run map from cleansed source-table name to its resolved schema's
`columns` list (`source_tables_schema_dict`). -/
abbrev SchemaDict := List (String × List SchemaCol)

/-- The external collaborators of `generate_source_schema_config`:
`sqlSchema t` is the `INFORMATION_SCHEMA` introspection of table `t` behind
the key-vault connection string, and `artifact area t` is the `columns` list
of the JSON artifact `{area}_schema_{t}.json` loaded from disk. -/
structure ExternalWorld where
  sqlSchema : String → List SchemaCol
  artifact : String → String → List SchemaCol

/-- Validation-phase errors, each carrying the payload its `ValueError`
message reports. -/
inductive VError where
  | invalidRequiredArea (tda : String)
  | missingColumns (cols : List String)
  | invalidTargetArea (tda : String)
  | invalidSourceColumns (cols : List String)
deriving DecidableEq

/-- core/functions.py `get_required_columns_list`. -/
def get_required_columns_list (tda : String) : Except VError (List String) :=
  match MAP_FILE_REQUIRED_COLUMNS_MAP.lookup tda with
  | some l => Except.ok l
  | none => Except.error (.invalidRequiredArea tda)

/-- core/functions.py `generate_source_schema_config`.  Dispatches on
`TARGET_SOURCE_AREA_MAP.get(target_data_area)`: `'landing-zone'` goes to SQL
introspection, `'bronze'`/`'silver'` load the upstream JSON artifact, and a
missing key (`None`) falls to the `else` branch that raises
`ValueError("Invalid target data area: ...")`. -/
def generate_source_schema_config (w : ExternalWorld) (tda : String) (tbl : String) :
    Except VError (List SchemaCol) :=
  match TARGET_SOURCE_AREA_MAP.lookup tda with
  | some sda =>
      if sda = "landing-zone" then Except.ok (w.sqlSchema tbl)
      else if sda = "bronze" ∨ sda = "silver" then Except.ok (w.artifact sda tbl)
      else Except.error (.invalidTargetArea tda)
  | none => Except.error (.invalidTargetArea tda)

/-- The dict comprehension of `validate_mapping_file` building
`source_tables_schema_dict`: resolve each cleansed source table in order,
aborting on the first failure. -/
def resolveTables (w : ExternalWorld) (tda : String) :
    List String → Except VError SchemaDict
  | [] => Except.ok []
  | t :: ts => do
      let s ← generate_source_schema_config w tda t
      let rest ← resolveTables w tda ts
      Except.ok ((t, s) :: rest)

def source_schema_names (d : SchemaDict) (t : String) : List String :=
  ((d.lookup t).getD []).map (·.name)

/-- The source-column check loop of `validate_mapping_file`: for each resolved
source table, the cleansed distinct source columns of rows naming it that are
absent from its schema, accumulated in order. -/
def invalid_source_columns (f : MappingFile) (d : SchemaDict) :
    List String → List String
  | [] => []
  | t :: ts =>
      (((cleanse_column_list
          (dedupF ((f.rows.filter
            (fun r => decide (r.sourceTable = Cell.str t))).map (·.sourceColumn)))).filter
          (fun c => decide (c ∉ source_schema_names d t)))
        ++ invalid_source_columns f d ts)

/-- core/functions.py `validate_mapping_file` (the file is already loaded into
`f`; loading is external I/O).  Checks required headers, resolves a schema for
each distinct cleansed source table, then collects invalid source columns. -/
def validate_mapping_file (w : ExternalWorld) (f : MappingFile) (tda : String) :
    Except VError (MappingFile × SchemaDict) := do
  let required ← get_required_columns_list tda
  let missing := required.filter (fun c => decide (c ∉ f.headers))
  if missing = [] then
    let stList := cleanse_column_list (dedupF (f.rows.map (·.sourceTable)))
    let d ← resolveTables w tda stList
    let invalid := invalid_source_columns f d stList
    if invalid = [] then Except.ok (f, d)
    else Except.error (.invalidSourceColumns invalid)
  else Except.error (.missingColumns missing)

/-- Outcome of main.py `main` up to the point where `process_mapping_file`
starts generating and writing artifact files. -/
inductive RunPhase where
  | abortedInValidation (e : VError)
  | abortedEmptyMappingFile
  | abortedEmptySchemaDict
  | proceedsToWriting (d : SchemaDict)

/-- main.py `main`, lines 16-29: validate, then the two emptiness guards;
`proceedsToWriting` means the run goes on to generate and write config
files. -/
def main_validate_phase (w : ExternalWorld) (f : MappingFile) (tda : String) :
    RunPhase :=
  match validate_mapping_file w f tda with
  | .error e => .abortedInValidation e
  | .ok (df, d) =>
      if df.rows.length = 0 then .abortedEmptyMappingFile
      else if d.length = 0 then .abortedEmptySchemaDict
      else .proceedsToWriting d

/-- Rows of the mapping file whose raw `Target Table Name` cell equals the
cleansed name `t` (the code filters with `df['Target Table Name'] == t`). -/
def rows_for_target (f : MappingFile) (t : String) : List Row :=
  f.rows.filter (fun r => decide (r.targetTable = Cell.str t))

/-- The cleansed, deduplicated target-table list the generators iterate. -/
def target_tables (f : MappingFile) : List String :=
  cleanse_column_list (dedupF (f.rows.map (·.targetTable)))

/-- Line 282 of core/functions.py: `...['Source Table Name'].unique().tolist()[0]`
for the rows of target table `t` — the first distinct raw source-table value,
null or not (`none` when the table has no matching rows, where Python raises
`IndexError`). -/
def assoc_source_cell (f : MappingFile) (t : String) : Option Cell :=
  (dedupF ((rows_for_target f t).map (·.sourceTable))).head?

/-- `pd.isna` on a cell: true for `None` and float `NaN`. -/
def isNA : Cell → Bool
  | .nullV => true
  | .floatV n => n
  | .str _ => false

/-- `PANDAS_DATATYPE_MAP.get(raw, 'string')` on the raw `Data Type` cell (no
strip — line 327); a non-string key just misses and yields the default. -/
def raw_data_type (c : Cell) : String :=
  match c with
  | .str s => (PANDAS_DATATYPE_MAP.lookup s).getD "string"
  | _ => "string"

/-- One iteration of the row loop of `generate_target_schema_config`: name
from the cleansed target column; type from the raw `Data Type` cell when the
source column is `NaN`/`None`, else from the matching source-schema column
(`IndexError` when no schema column matches). -/
def target_schema_row (schema : List SchemaCol) (r : Row) :
    Except String SchemaCol := do
  let name ← cleanse1 r.targetColumn
  if isNA r.sourceColumn then
    Except.ok ⟨name, raw_data_type r.dataType⟩
  else do
    let scn ← cleanse1 r.sourceColumn
    match (schema.filter (fun c => decide (c.name = scn))).head? with
    | some c => Except.ok ⟨name, (PANDAS_DATATYPE_MAP.lookup c.type).getD "string"⟩
    | none => Except.error "IndexError: source column not in source schema"

def target_schema_rows (schema : List SchemaCol) :
    List Row → Except String (List SchemaCol)
  | [] => Except.ok []
  | r :: rs => do
      let c ← target_schema_row schema r
      let rest ← target_schema_rows schema rs
      Except.ok (c :: rest)

/-- A generated target schema (constant pass-through fields omitted). -/
structure TargetSchema where
  table_name : String
  sort_columns : List String
  partition_columns : List String
  columns : List SchemaCol
deriving DecidableEq

def rowLeOrder (a b : Row) : Prop := a.orderBy.getD 0 ≤ b.orderBy.getD 0

def rowLePartition (a b : Row) : Prop := a.partitionBy.getD 0 ≤ b.partitionBy.getD 0

instance : DecidableRel rowLeOrder :=
  fun a b => inferInstanceAs (Decidable (a.orderBy.getD 0 ≤ b.orderBy.getD 0))

instance : DecidableRel rowLePartition :=
  fun a b => inferInstanceAs (Decidable (a.partitionBy.getD 0 ≤ b.partitionBy.getD 0))

/-- The per-target-table body of `generate_target_schema_config`: resolve the
associated source schema (raw-value dict lookup — `KeyError` on a null or
unmatched value), derive sort/partition columns, add the tier's
`MergeKey`/`IngestDate`, process each row, append the audit columns
(`audit` is the externally configured audit-column list for the tier). -/
def build_target_schema (tda : String) (d : SchemaDict) (audit : List SchemaCol)
    (f : MappingFile) (t : String) : Except String TargetSchema := do
  let srcCell ← match assoc_source_cell f t with
    | some c => Except.ok c
    | none => Except.error "IndexError: target table has no matching rows"
  let schema ← match srcCell with
    | Cell.str s =>
        match d.lookup s with
        | some sc => Except.ok sc
        | none => Except.error "KeyError: source table not in resolved schemas"
    | _ => Except.error "KeyError: non-string source table value"
  let sortBase := cleanse_column_list
    ((List.insertionSort rowLeOrder
      ((rows_for_target f t).filter (fun r => r.orderBy.isSome))).map (·.targetColumn))
  let partBase := cleanse_column_list
    ((List.insertionSort rowLePartition
      ((rows_for_target f t).filter (fun r => r.partitionBy.isSome))).map (·.targetColumn))
  let sortCols := if tda = "silver" ∨ tda = "gold" then sortBase ++ ["MergeKey"] else sortBase
  let partCols := if tda = "silver" ∨ tda = "gold" then partBase else partBase ++ ["IngestDate"]
  let headCols : List SchemaCol :=
    if tda = "silver" ∨ tda = "gold" then [⟨"MergeKey", "string"⟩] else []
  let rowCols ← target_schema_rows schema (rows_for_target f t)
  Except.ok ⟨t, sortCols, partCols, headCols ++ rowCols ++ audit⟩

def build_target_schemas (tda : String) (d : SchemaDict) (audit : List SchemaCol)
    (f : MappingFile) : List String → Except String (List (String × TargetSchema))
  | [] => Except.ok []
  | t :: ts => do
      let v ← build_target_schema tda d audit f t
      let rest ← build_target_schemas tda d audit f ts
      Except.ok ((t, v) :: rest)

/-- core/functions.py `generate_target_schema_config` (its `try` turns every
internal failure into a `ValueError`; the result dict is keyed in loop
order). -/
def generate_target_schema_config (tda : String) (d : SchemaDict)
    (audit : List SchemaCol) (f : MappingFile) :
    Except String (List (String × TargetSchema)) :=
  build_target_schemas tda d audit f (target_tables f)

/-- A generated pipeline linkage (constant `"cura"` path fields omitted). -/
structure PipelineLinkage where
  source_data_area : String
  source_table_name : String
  target_data_area : String
  target_table_name : String
deriving DecidableEq

/-- Python dict assignment `m[k] = v`: replace in place when the key exists
(keeping its original position), else append. -/
def insertPy {α : Type} (m : List (String × α)) (k : String) (v : α) :
    List (String × α) :=
  if m.any (fun p => decide (p.1 = k)) then
    m.map (fun p => if p.1 = k then (k, v) else p)
  else m ++ [(k, v)]

/-- Line 365 of core/functions.py:
`df[['Source Table Name','Target Table Name']].drop_duplicates().dropna()` —
first-occurrence duplicate removal over the raw cell pairs, then dropping
pairs with a `NaN`/`None` component. -/
def pipeline_pairs (f : MappingFile) : List (Cell × Cell) :=
  (dedupF (f.rows.map (fun r => (r.sourceTable, r.targetTable)))).filter
    (fun p => !isNA p.1 && !isNA p.2)

/-- The row loop of `generate_pipeline_config`: the configuration dict is
keyed by the cleansed target-table name alone, so a later pair with the same
target overwrites the earlier one. -/
def build_pipeline (tda : String) (acc : List (String × PipelineLinkage)) :
    List (Cell × Cell) → Except String (List (String × PipelineLinkage))
  | [] => Except.ok acc
  | p :: ps => do
      let s1 ← cleanse1 p.1
      let t1 ← cleanse1 p.2
      let sda ← match TARGET_SOURCE_AREA_MAP.lookup tda with
        | some sda => Except.ok sda
        | none => Except.error "KeyError: target data area not in TARGET_SOURCE_AREA_MAP"
      build_pipeline tda (insertPy acc t1 ⟨sda, s1, tda, t1⟩) ps

/-- core/functions.py `generate_pipeline_config`. -/
def generate_pipeline_config (tda : String) (f : MappingFile) :
    Except String (List (String × PipelineLinkage)) :=
  build_pipeline tda [] (pipeline_pairs f)

/-- One generated column mapping: `{name, type, source}`. -/
structure ColumnMapping where
  name : String
  type : String
  source : Json

/-- One generated per-table mapping configuration (constant pass-through
fields omitted). -/
structure MappingTable where
  table_name : String
  source : String
  target : String
  columns : List ColumnMapping

def AFFIRMATIVE_RESPONSES : List String := ["y", "yes", "true", "t", "1", "x"]

/-- `df['Is Business Key'].str.lower().isin(affirmative_responses)`: a
non-string cell lowers to `NaN` and is not in the set. -/
def isAffirmative : Cell → Bool
  | .str s => AFFIRMATIVE_RESPONSES.contains (pyLower s)
  | _ => false

/-- The cleansed target columns of the rows of table `t` whose business-key
indicator is affirmative, in row order. -/
def business_key_cols (f : MappingFile) (t : String) : List String :=
  cleanse_column_list
    (((rows_for_target f t).filter (fun r => isAffirmative r.isBusinessKey)).map
      (·.targetColumn))

/-- The synthetic `MergeKey` column mapping prepended by
`generate_mapping_config`. -/
def merge_key_column (bk : List String) : ColumnMapping :=
  ⟨"MergeKey", "string",
    Json.obj [("function", Json.str "key_hash"),
              ("params", Json.obj [("column_names", Json.arr (bk.map Json.str))]),
              ("type", Json.str "string")]⟩

/-- Python dict assignment on a parsed JSON object: `d["type"] = "string"`
replaces an existing `"type"` field in place, else appends it. -/
def jsetField (fs : List (String × Json)) (k : String) (v : Json) :
    List (String × Json) :=
  if fs.any (fun p => decide (p.1 = k)) then
    fs.map (fun p => if p.1 = k then (k, v) else p)
  else fs ++ [(k, v)]

/-- Lines 446-448: the declared `Data Type` cell, stripped when it is a
string, mapped through `PANDAS_DATATYPE_MAP` with default `'string'`. -/
def stripped_data_type (c : Cell) : String :=
  match c with
  | .str s => (PANDAS_DATATYPE_MAP.lookup (pyStrip s)).getD "string"
  | _ => "string"

/-- Line 450: both source column and source table are strings that are
non-blank after stripping. -/
def usableSource (r : Row) : Bool :=
  match r.sourceColumn, r.sourceTable with
  | .str sc, .str st => decide (pyStrip sc ≠ "" ∧ pyStrip st ≠ "")
  | _, _ => false

/-- The no-direct-source arm of the row loop of `generate_mapping_config`
(lines 462-473): try the embedded `Transformation Function` JSON.  `ok none`
is the `continue` taken on a `JSONDecodeError`; a parse to a non-object
raises an uncaught `TypeError` on `source_dict["type"] = "string"`. -/
def processRowTf (hs : List String) (name ty0 : String) (r : Row) :
    Except String (Option ColumnMapping) :=
  if "Transformation Function" ∈ hs then
    match r.tf with
    | some (some (Json.obj fs)) =>
        Except.ok (some ⟨name, ty0, Json.obj (jsetField fs "type" (Json.str "string"))⟩)
    | some (some _) => Except.error "TypeError: parsed transformation is not a JSON object"
    | some none => Except.ok none
    | none => Except.ok (some ⟨name, ty0, Json.obj []⟩)
  else Except.ok (some ⟨name, ty0, Json.obj []⟩)

/-- One iteration of the row loop of `generate_mapping_config` (lines
433-478).  `hs` is the header list of the mapping file.  `ok none` means the
row was skipped by `continue`. -/
def processRow (hs : List String) (d : SchemaDict) (r : Row) :
    Except String (Option ColumnMapping) := do
  let name ← match r.targetColumn with
    | .str s => Except.ok (pyStrip s)
    | _ => Except.error "AttributeError: Target Column Name is not a string"
  let ty0 := if "Data Type" ∈ hs then stripped_data_type r.dataType else "string"
  match r.sourceColumn, r.sourceTable with
  | .str sc, .str st =>
      if pyStrip sc ≠ "" ∧ pyStrip st ≠ "" then do
        let scn ← cleanse1 (Cell.str sc)
        let stn ← cleanse1 (Cell.str st)
        let sty ← match ((((d.lookup stn).getD []).filter
            (fun c => decide (c.name = scn))).map (·.type)).head? with
          | some ty => Except.ok ty
          | none => Except.error "IndexError: source column not in source schema"
        let ty := (PANDAS_DATATYPE_MAP.lookup sty).getD "string"
        Except.ok (some ⟨name, ty, Json.obj [("name", Json.str scn), ("type", Json.str ty)]⟩)
      else processRowTf hs name ty0 r
  | _, _ => processRowTf hs name ty0 r

def processRows (hs : List String) (d : SchemaDict) :
    List Row → Except String (List ColumnMapping)
  | [] => Except.ok []
  | r :: rs => do
      let c? ← processRow hs d r
      let rest ← processRows hs d rs
      match c? with
      | some c => Except.ok (c :: rest)
      | none => Except.ok rest

/-- The per-target-table body of `generate_mapping_config`: the header's
`TARGET_SOURCE_AREA_MAP[tda]` lookup (`KeyError` when absent), the
unconditional `MergeKey` prepend when the `Is Business Key` header exists,
the row loop, and the empty-columns check. -/
def build_mapping_table (tda : String) (d : SchemaDict) (f : MappingFile)
    (t : String) : Except String MappingTable := do
  let sda ← match TARGET_SOURCE_AREA_MAP.lookup tda with
    | some sda => Except.ok sda
    | none => Except.error "KeyError: target data area not in TARGET_SOURCE_AREA_MAP"
  let cols0 := if "Is Business Key" ∈ f.headers then
      [merge_key_column (business_key_cols f t)]
    else []
  let rowCols ← processRows f.headers d (rows_for_target f t)
  match cols0 ++ rowCols with
  | [] => Except.error "mapping configuration has no columns"
  | c :: cs => Except.ok ⟨t, sda, tda, c :: cs⟩

def build_mapping_tables (tda : String) (d : SchemaDict) (f : MappingFile) :
    List String → Except String (List (String × MappingTable))
  | [] => Except.ok []
  | t :: ts => do
      let v ← build_mapping_table tda d f t
      let rest ← build_mapping_tables tda d f ts
      Except.ok ((t, v) :: rest)

/-- core/functions.py `generate_mapping_config`. -/
def generate_mapping_config (tda : String) (d : SchemaDict) (f : MappingFile) :
    Except String (List (String × MappingTable)) :=
  build_mapping_tables tda d f (target_tables f)

def isOkE {ε α : Type} : Except ε α → Bool
  | .ok _ => true
  | .error _ => false

/-- First index of `x` in `l` (length of `l` when absent). -/
def firstIdx {α : Type} [DecidableEq α] (x : α) : List α → Nat
  | [] => 0
  | y :: ys => if y = x then 0 else firstIdx x ys + 1

/-! ## General lemmas about the embedded primitives -/

theorem data_mk (l : List Char) : (String.mk l).data = l := rfl

theorem mem_dedupFAux {α : Type} [DecidableEq α] {x : α} :
    ∀ (seen l : List α), x ∈ dedupFAux seen l ↔ x ∈ l ∧ x ∉ seen
  | _, [] => by simp [dedupFAux]
  | seen, a :: t => by
    by_cases h : a ∈ seen
    · rw [dedupFAux, if_pos h, mem_dedupFAux seen t]
      constructor
      · exact fun hp => ⟨List.mem_cons_of_mem _ hp.1, hp.2⟩
      · rintro ⟨hx, hns⟩
        rcases List.mem_cons.mp hx with rfl | hx
        · exact absurd h hns
        · exact ⟨hx, hns⟩
    · rw [dedupFAux, if_neg h, List.mem_cons, mem_dedupFAux (a :: seen) t]
      constructor
      · rintro (rfl | ⟨hx, hns⟩)
        · exact ⟨List.mem_cons_self _ _, h⟩
        · exact ⟨List.mem_cons_of_mem _ hx, fun hs => hns (List.mem_cons_of_mem _ hs)⟩
      · rintro ⟨hx, hns⟩
        by_cases hxa : x = a
        · exact Or.inl hxa
        · rcases List.mem_cons.mp hx with rfl | hx
          · exact Or.inl rfl
          · refine Or.inr ⟨hx, fun hs => ?_⟩
            rcases List.mem_cons.mp hs with rfl | hs
            · exact hxa rfl
            · exact hns hs

theorem mem_dedupF {α : Type} [DecidableEq α] {x : α} {l : List α} :
    x ∈ dedupF l ↔ x ∈ l := by
  rw [dedupF, mem_dedupFAux]
  simp

theorem nodup_dedupFAux {α : Type} [DecidableEq α] :
    ∀ (seen l : List α), (dedupFAux seen l).Nodup
  | _, [] => List.nodup_nil
  | seen, a :: t => by
    by_cases h : a ∈ seen
    · rw [dedupFAux, if_pos h]
      exact nodup_dedupFAux seen t
    · rw [dedupFAux, if_neg h, List.nodup_cons]
      refine ⟨fun hmem => ?_, nodup_dedupFAux (a :: seen) t⟩
      exact ((mem_dedupFAux (a :: seen) t).mp hmem).2 (List.mem_cons_self a seen)

theorem nodup_dedupF {α : Type} [DecidableEq α] (l : List α) : (dedupF l).Nodup :=
  nodup_dedupFAux [] l

theorem dedupF_head? {α : Type} [DecidableEq α] (l : List α) :
    (dedupF l).head? = l.head? := by
  cases l with
  | nil => rfl
  | cons a t => simp [dedupF, dedupFAux]

theorem firstIdx_cons {α : Type} [DecidableEq α] (x a : α) (l : List α) :
    firstIdx x (a :: l) = if a = x then 0 else firstIdx x l + 1 := rfl

theorem dedupFAux_firstIdx_iff {α : Type} [DecidableEq α] {x y : α} :
    ∀ (seen l : List α), x ∈ dedupFAux seen l → y ∈ dedupFAux seen l →
      (firstIdx x (dedupFAux seen l) < firstIdx y (dedupFAux seen l) ↔
        firstIdx x l < firstIdx y l)
  | _, [], hx, _ => by simp [dedupFAux] at hx
  | seen, a :: t, hx, hy => by
    by_cases h : a ∈ seen
    · rw [dedupFAux, if_pos h] at hx hy ⊢
      have hxm := (mem_dedupFAux seen t).mp hx
      have hym := (mem_dedupFAux seen t).mp hy
      have hxa : a ≠ x := fun he => hxm.2 (he ▸ h)
      have hya : a ≠ y := fun he => hym.2 (he ▸ h)
      rw [firstIdx_cons x a t, firstIdx_cons y a t, if_neg hxa, if_neg hya,
        Nat.add_lt_add_iff_right]
      exact dedupFAux_firstIdx_iff seen t hx hy
    · rw [dedupFAux, if_neg h] at hx hy ⊢
      by_cases hxa : a = x
      · by_cases hya : a = y
        · rw [firstIdx_cons x a _, if_pos hxa, firstIdx_cons y a _, if_pos hya,
            firstIdx_cons x a t, if_pos hxa, firstIdx_cons y a t, if_pos hya]
        · rw [firstIdx_cons x a _, if_pos hxa, firstIdx_cons y a _, if_neg hya,
            firstIdx_cons x a t, if_pos hxa, firstIdx_cons y a t, if_neg hya]
          exact iff_of_true (Nat.succ_pos _) (Nat.succ_pos _)
      · by_cases hya : a = y
        · rw [firstIdx_cons x a _, if_neg hxa, firstIdx_cons y a _, if_pos hya,
            firstIdx_cons x a t, if_neg hxa, firstIdx_cons y a t, if_pos hya]
          exact iff_of_false (Nat.not_lt_zero _) (Nat.not_lt_zero _)
        · have hx2 : x ∈ dedupFAux (a :: seen) t := by
            rcases List.mem_cons.mp hx with rfl | hx2
            · exact absurd rfl hxa
            · exact hx2
          have hy2 : y ∈ dedupFAux (a :: seen) t := by
            rcases List.mem_cons.mp hy with rfl | hy2
            · exact absurd rfl hya
            · exact hy2
          rw [firstIdx_cons x a _, if_neg hxa, firstIdx_cons y a _, if_neg hya,
            firstIdx_cons x a t, if_neg hxa, firstIdx_cons y a t, if_neg hya,
            Nat.add_lt_add_iff_right, Nat.add_lt_add_iff_right]
          exact dedupFAux_firstIdx_iff (a :: seen) t hx2 hy2

theorem mem_of_mem_dropWhile {α : Type} (p : α → Bool) :
    ∀ (l : List α) {c : α}, c ∈ l.dropWhile p → c ∈ l
  | [], _, h => by simp [List.dropWhile] at h
  | a :: t, c, h => by
    rw [List.dropWhile_cons] at h
    by_cases hp : p a = true
    · rw [if_pos hp] at h
      exact List.mem_cons_of_mem _ (mem_of_mem_dropWhile p t h)
    · rwa [if_neg hp] at h

theorem head?_dropWhile_not {α : Type} (p : α → Bool) :
    ∀ (l : List α) {c : α}, (l.dropWhile p).head? = some c → p c = false
  | [], _, h => by simp [List.dropWhile] at h
  | a :: t, c, h => by
    rw [List.dropWhile_cons] at h
    by_cases hp : p a = true
    · rw [if_pos hp] at h
      exact head?_dropWhile_not p t h
    · rw [if_neg hp] at h
      simp only [List.head?_cons, Option.some.injEq] at h
      subst h
      exact Bool.eq_false_iff.mpr hp

theorem mem_data_pyStrip {w : String} {c : Char} (h : c ∈ (pyStrip w).data) :
    c ∈ w.data := by
  rw [pyStrip, data_mk, List.mem_reverse] at h
  have h1 := mem_of_mem_dropWhile pyIsSpace _ h
  rw [List.mem_reverse] at h1
  exact mem_of_mem_dropWhile pyIsSpace _ h1

theorem mem_data_removeInvisible_not {u : String} {c : Char}
    (h : c ∈ (removeInvisible u).data) : c ∉ INVISIBLE_CHARS := by
  rw [removeInvisible, data_mk] at h
  have h2 := (List.mem_filter.mp h).2
  simp only [Bool.not_eq_eq_eq_not, Bool.not_true] at h2
  intro hc
  rw [List.contains_eq_any_beq] at h2
  have h3 : (INVISIBLE_CHARS.any fun x => c == x) = true :=
    List.any_eq_true.mpr ⟨c, hc, by simp⟩
  rw [h3] at h2
  cases h2

theorem pyStrip_head_last {w : String} (h : (pyStrip w).data ≠ []) :
    pyIsSpace ((pyStrip w).data.headD ' ') = false
    ∧ pyIsSpace ((pyStrip w).data.getLastD ' ') = false := by
  have hdata : (pyStrip w).data =
      ((w.data.dropWhile pyIsSpace).reverse.dropWhile pyIsSpace).reverse := rfl
  rw [hdata] at h ⊢
  have hm : (w.data.dropWhile pyIsSpace).reverse.dropWhile pyIsSpace ≠ [] := by
    intro h0
    rw [h0] at h
    exact h rfl
  obtain ⟨c, m, hcm⟩ := List.exists_cons_of_ne_nil hm
  constructor
  · have hpre : ((w.data.dropWhile pyIsSpace).reverse.dropWhile pyIsSpace).reverse <+:
        w.data.dropWhile pyIsSpace := by
      have hsuf : (w.data.dropWhile pyIsSpace).reverse.dropWhile pyIsSpace <:+
          (w.data.dropWhile pyIsSpace).reverse := List.dropWhile_suffix _
      have := List.reverse_prefix.mpr hsuf
      rwa [List.reverse_reverse] at this
    obtain ⟨tail, htail⟩ := hpre
    obtain ⟨c2, m2, hcm2⟩ := List.exists_cons_of_ne_nil h
    rw [hcm2, List.headD_cons]
    have hv : w.data.dropWhile pyIsSpace = c2 :: (m2 ++ tail) := by
      rw [← htail, hcm2]
      simp
    have : (w.data.dropWhile pyIsSpace).head? = some c2 := by
      rw [hv, List.head?_cons]
    exact head?_dropWhile_not pyIsSpace w.data this
  · rw [List.getLastD_eq_getLast?, List.getLast?_reverse, hcm, List.head?_cons]
    have : ((w.data.dropWhile pyIsSpace).reverse.dropWhile pyIsSpace).head? = some c := by
      rw [hcm, List.head?_cons]
    simpa using head?_dropWhile_not pyIsSpace _ this

theorem cleanse_mem_shape {l : List Cell} {s : String}
    (h : s ∈ cleanse_column_list l) :
    ∃ u : String, s = pyStrip (removeInvisible u) := by
  unfold cleanse_column_list at h
  split at h
  · simp at h
  · split at h
    · simp at h
    · have h2 : s ∈ cleanse_steps (l.filter (fun c => decide (c ≠ Cell.str ""))) :=
        mem_dedupF.mp h
      unfold cleanse_steps at h2
      obtain ⟨v, hv, rfl⟩ := List.mem_map.mp h2
      obtain ⟨u, _, rfl⟩ := List.mem_map.mp hv
      exact ⟨u, rfl⟩

/-! ## Claim theorems -/

def c1_world : ExternalWorld := ⟨fun _ => [], fun _ _ => []⟩

/-- A mapping file carrying every one of the ten columns the specification
requires for the bronze/silver/gold tiers. -/
def c1_file : MappingFile :=
  ⟨["Source Table Name", "Source Column Name", "Target Table Name",
    "Target Column Name", "Order By", "Partition By", "Is Business Key",
    "Data Type", "Default Value", "Transformation Function"], []⟩

/-- C1: the claim says every tier in {landing-zone, bronze, silver, gold} has
its headers compared against that tier's required-column set.  In the code
`MAP_FILE_REQUIRED_COLUMNS_MAP` has no `'silver'` or `'gold'` key (the dict
literal defines `'bronze'` twice instead), so for those tiers
`get_required_columns_list` raises `ValueError("Invalid target data area:...")`
and `validate_mapping_file` fails before any header comparison — even on a
file that carries every required column. -/
theorem c1_silver_gold_not_compared :
    get_required_columns_list "silver" = Except.error (VError.invalidRequiredArea "silver")
    ∧ get_required_columns_list "gold" = Except.error (VError.invalidRequiredArea "gold")
    ∧ validate_mapping_file c1_world c1_file "silver" =
        Except.error (VError.invalidRequiredArea "silver")
    ∧ validate_mapping_file c1_world c1_file "gold" =
        Except.error (VError.invalidRequiredArea "gold") :=
  ⟨rfl, rfl, rfl, rfl⟩

/-- C2: the claim (and the spec example) says
`cleanse(["A ", " A", "", None, "B"]) == ["A", "B"]`.  In the code the `None`
entry survives to the `col.replace(...)` step (the `None` filter comes only
after it), raises `AttributeError`, and the blanket `except` returns `[]`. -/
theorem c2_cleanse_example_empty :
    cleanse_column_list
        [Cell.str "A ", Cell.str " A", Cell.str "", Cell.nullV, Cell.str "B"] = []
    ∧ cleanse_column_list
        [Cell.str "A ", Cell.str " A", Cell.str "", Cell.nullV, Cell.str "B"] ≠
        ["A", "B"] := by
  constructor
  · decide
  · decide

/-- C7 counterexample: the claim says the output of `cleanse_column_list` has
no empty strings and no whitespace-only entries.  A whitespace-only input
entry is not dropped (only literal `''` entries are, and that happens before
trimming), so it survives trimming as the empty string. -/
theorem c7_counterexample_whitespace_entry :
    cleanse_column_list [Cell.str " "] = [""]
    ∧ "" ∈ cleanse_column_list [Cell.str " "] := by
  constructor
  · decide
  · decide

/-- C7 (amended): for every input list the output of `cleanse_column_list`
has no duplicates, contains none of the four invisible characters, every
nonempty entry starts and ends with a non-whitespace character (`None`/`NaN`
entries cannot occur in the output, which is a list of strings), and the
surviving entries keep their first-seen relative order from the processed
entry list; however a whitespace-only or invisible-only entry survives as the
empty string, so "no empty/whitespace-only entries" does not hold. -/
theorem c7_cleanse_invariants (l : List Cell) :
    (cleanse_column_list l).Nodup
    ∧ (∀ s, s ∈ cleanse_column_list l →
        (∀ c, c ∈ s.data → c ∉ INVISIBLE_CHARS)
        ∧ (s.data ≠ [] → pyIsSpace (s.data.headD ' ') = false
            ∧ pyIsSpace (s.data.getLastD ' ') = false))
    ∧ (∀ x y, x ∈ cleanse_column_list l → y ∈ cleanse_column_list l →
        (firstIdx x (cleanse_column_list l) < firstIdx y (cleanse_column_list l) ↔
          firstIdx x (cleanse_steps (l.filter (fun c => decide (c ≠ Cell.str "")))) <
            firstIdx y (cleanse_steps (l.filter (fun c => decide (c ≠ Cell.str "")))))) := by
  refine ⟨?_, ?_, ?_⟩
  · unfold cleanse_column_list
    split
    · exact List.nodup_nil
    · split
      · exact List.nodup_nil
      · exact nodup_dedupF _
  · intro s hs
    obtain ⟨u, rfl⟩ := cleanse_mem_shape hs
    exact ⟨fun c hc => mem_data_removeInvisible_not (mem_data_pyStrip hc),
      fun hne => pyStrip_head_last hne⟩
  · intro x y hx hy
    by_cases h1 : ((l.filter (fun c => decide (c ≠ Cell.str ""))).any isFloatCell) = true
    · unfold cleanse_column_list at hx
      rw [if_pos h1] at hx
      simp at hx
    · by_cases h2 : ((l.filter (fun c => decide (c ≠ Cell.str ""))).any isNullCell) = true
      · unfold cleanse_column_list at hx
        rw [if_neg h1, if_pos h2] at hx
        simp at hx
      · unfold cleanse_column_list at hx hy ⊢
        rw [if_neg h1, if_neg h2] at hx hy ⊢
        exact dedupFAux_firstIdx_iff [] _ hx hy

/-- C7 witness: the amended invariants evaluated on the concrete input
`["b", "a", "b "]`, whose cleansed output is `["b", "a"]`. -/
theorem c7_cleanse_invariants_witness :
    (cleanse_column_list [Cell.str "b", Cell.str "a", Cell.str "b "]).Nodup
    ∧ pyIsSpace (("a" : String).data.headD ' ') = false
    ∧ (firstIdx "b" (cleanse_column_list [Cell.str "b", Cell.str "a", Cell.str "b "]) <
        firstIdx "a" (cleanse_column_list [Cell.str "b", Cell.str "a", Cell.str "b "]) ↔
       firstIdx "b" (cleanse_steps ([Cell.str "b", Cell.str "a", Cell.str "b "].filter
          (fun c => decide (c ≠ Cell.str "")))) <
       firstIdx "a" (cleanse_steps ([Cell.str "b", Cell.str "a", Cell.str "b "].filter
          (fun c => decide (c ≠ Cell.str ""))))) :=
  ⟨(c7_cleanse_invariants [Cell.str "b", Cell.str "a", Cell.str "b "]).1,
   (((c7_cleanse_invariants [Cell.str "b", Cell.str "a", Cell.str "b "]).2.1 "a"
      (by decide)).2 (by decide)).1,
   (c7_cleanse_invariants [Cell.str "b", Cell.str "a", Cell.str "b "]).2.2 "b" "a"
     (by decide) (by decide)⟩

theorem bind_ok {ε α β : Type} (a : α) (k : α → Except ε β) :
    (Except.ok a >>= k) = k a := rfl

theorem bind_err {ε α β : Type} (e : ε) (k : α → Except ε β) :
    ((Except.error e : Except ε α) >>= k) = Except.error e := rfl

def c6_world : ExternalWorld := ⟨fun _ => [⟨"id", "int"⟩], fun _ _ => []⟩

/-- A row of source table `S` referencing the source column `email`, which is
absent from the resolved schema of `S` (that schema has only `id`). -/
def c6_row_email : Row :=
  ⟨Cell.str "S", Cell.str "email", Cell.str "T", Cell.str "C1", Cell.nullV,
   none, none, Cell.nullV, none⟩

/-- A second row of source table `S` with a missing (`NaN`) source column. -/
def c6_row_nan : Row :=
  ⟨Cell.str "S", Cell.floatV true, Cell.str "T", Cell.str "C2", Cell.nullV,
   none, none, Cell.nullV, none⟩

def c6_file : MappingFile :=
  ⟨["Source Table Name", "Source Column Name", "Target Table Name",
    "Target Column Name", "Order By", "Partition By", "Is Business Key",
    "Data Type", "Default Value", "Transformation Function"],
   [c6_row_email, c6_row_nan]⟩

/-- C6: the claim says a specification referencing the absent source column
`email` always fails validation with an error naming `email`, and no files
are written.  When the same source table also has a row with a missing
(`NaN`) source column, `cleanse_column_list` crashes internally on the `NaN`
(`math` is not imported) and returns `[]`, so the column check inspects
nothing: validation SUCCEEDS and `main` proceeds toward
`process_mapping_file`, which writes the target-tables and source-schema
files before the bad column can fail anything.  Dropping the `NaN` row
(third conjunct) shows the claimed error is what the code intends. -/
theorem c6_nan_row_bypasses_column_check :
    validate_mapping_file c6_world c6_file "bronze" =
      Except.ok (c6_file, [("S", [⟨"id", "int"⟩])])
    ∧ main_validate_phase c6_world c6_file "bronze" =
        RunPhase.proceedsToWriting [("S", [⟨"id", "int"⟩])]
    ∧ validate_mapping_file c6_world
        (⟨c6_file.headers, [c6_row_email]⟩ : MappingFile) "bronze" =
        Except.error (VError.invalidSourceColumns ["email"]) :=
  ⟨rfl, rfl, rfl⟩

def c10_world : ExternalWorld := ⟨fun _ => [], fun _ _ => []⟩

def c10_row_src : Row :=
  ⟨Cell.str "S", Cell.str "c1", Cell.str "T", Cell.str "C1", Cell.nullV,
   none, none, Cell.nullV, none⟩

def c10_row_nan : Row :=
  ⟨Cell.floatV true, Cell.str "c2", Cell.str "T", Cell.str "C2", Cell.nullV,
   none, none, Cell.nullV, none⟩

def c10_file : MappingFile :=
  ⟨["Source Table Name", "Source Column Name", "Target Table Name",
    "Target Column Name"], [c10_row_src, c10_row_nan]⟩

/-- C10 counterexample: this landing-zone specification references the
non-null source table `S`, yet `validate_mapping_file` does not raise at all:
the second row's `NaN` source table makes `cleanse_column_list` crash
internally and return no source tables, so schema resolution is skipped and
validation returns successfully; `main` then aborts on its
empty-schema-dictionary guard, not on an invalid-target-data-area error. -/
theorem c10_counterexample_null_source_row :
    validate_mapping_file c10_world c10_file "landing-zone" =
      Except.ok (c10_file, [])
    ∧ main_validate_phase c10_world c10_file "landing-zone" =
        RunPhase.abortedEmptySchemaDict :=
  ⟨rfl, rfl⟩

/-- C10 (amended): for a landing-zone run whose required headers are present
and whose rows all carry string source-table cells, at least one of them
non-empty, `validate_mapping_file` raises the invalid-target-data-area error
during source-schema resolution (`TARGET_SOURCE_AREA_MAP` has no
`landing-zone` key), so such a compilation never proceeds past validation.
The all-string hypothesis is necessary: a null/`NaN` source-table cell makes
the cleansing step return `[]` and validation silently skips resolution. -/
theorem c10_landing_zone_resolution_fails (w : ExternalWorld) (f : MappingFile)
    (hreq : ∀ c, c ∈ (["Source Table Name", "Source Column Name",
        "Target Table Name", "Target Column Name"] : List String) → c ∈ f.headers)
    (hstr : ∀ r, r ∈ f.rows → ∃ s, r.sourceTable = Cell.str s)
    (hne : ∃ r, r ∈ f.rows ∧ r.sourceTable ≠ Cell.str "") :
    validate_mapping_file w f "landing-zone" =
      Except.error (VError.invalidTargetArea "landing-zone") := by
  have hmiss : (["Source Table Name", "Source Column Name", "Target Table Name",
      "Target Column Name"] : List String).filter
        (fun c => decide (c ∉ f.headers)) = [] := by
    rw [List.filter_eq_nil_iff]
    intro c hc
    simp only [decide_eq_true_eq, Decidable.not_not]
    exact hreq c hc
  obtain ⟨r0, hr0, hr0ne⟩ := hne
  obtain ⟨s0, hs0⟩ := hstr r0 hr0
  have hs0ne : s0 ≠ "" := fun h0 => hr0ne (by rw [hs0, h0])
  have hc0 : Cell.str s0 ∈ f.rows.map (·.sourceTable) :=
    List.mem_map.mpr ⟨r0, hr0, hs0⟩
  have hcellstr : ∀ c, c ∈ f.rows.map (·.sourceTable) → ∃ s, c = Cell.str s := by
    intro c hcmem
    obtain ⟨r, hr, rfl⟩ := List.mem_map.mp hcmem
    exact hstr r hr
  have hl1mem : ∀ c, c ∈ (dedupF (f.rows.map (·.sourceTable))).filter
      (fun c => decide (c ≠ Cell.str "")) → ∃ s, c = Cell.str s :=
    fun c hcm => hcellstr c (mem_dedupF.mp (List.mem_of_mem_filter hcm))
  have hfl : ((dedupF (f.rows.map (·.sourceTable))).filter
      (fun c => decide (c ≠ Cell.str ""))).any isFloatCell = false := by
    rw [List.any_eq_false]
    intro c hcm
    obtain ⟨s, rfl⟩ := hl1mem c hcm
    simp [isFloatCell]
  have hnl : ((dedupF (f.rows.map (·.sourceTable))).filter
      (fun c => decide (c ≠ Cell.str ""))).any isNullCell = false := by
    rw [List.any_eq_false]
    intro c hcm
    obtain ⟨s, rfl⟩ := hl1mem c hcm
    simp [isNullCell]
  have hc0f : Cell.str s0 ∈ (dedupF (f.rows.map (·.sourceTable))).filter
      (fun c => decide (c ≠ Cell.str "")) := by
    refine List.mem_filter.mpr ⟨mem_dedupF.mpr hc0, ?_⟩
    simp [hs0ne]
  have hstepmem : pyStrip (removeInvisible s0) ∈
      cleanse_steps ((dedupF (f.rows.map (·.sourceTable))).filter
        (fun c => decide (c ≠ Cell.str ""))) := by
    unfold cleanse_steps
    exact List.mem_map.mpr ⟨removeInvisible s0,
      List.mem_map.mpr ⟨s0, List.mem_filterMap.mpr ⟨Cell.str s0, hc0f, rfl⟩, rfl⟩, rfl⟩
  have hclean : cleanse_column_list (dedupF (f.rows.map (·.sourceTable))) =
      dedupF (cleanse_steps ((dedupF (f.rows.map (·.sourceTable))).filter
        (fun c => decide (c ≠ Cell.str "")))) := by
    unfold cleanse_column_list
    rw [if_neg (by simp only [hfl]; exact Bool.false_ne_true),
      if_neg (by simp only [hnl]; exact Bool.false_ne_true)]
  obtain ⟨t1, ts1, hst⟩ :=
    List.exists_cons_of_ne_nil (List.ne_nil_of_mem (mem_dedupF.mpr hstepmem))
  have hgen : generate_source_schema_config w "landing-zone" t1 =
      Except.error (VError.invalidTargetArea "landing-zone") := rfl
  simp only [validate_mapping_file, get_required_columns_list,
    MAP_FILE_REQUIRED_COLUMNS_MAP]
  rw [show (List.lookup "landing-zone"
      [("landing-zone",
        ["Source Table Name", "Source Column Name", "Target Table Name",
         "Target Column Name"]),
       ("bronze",
        ["Source Table Name", "Source Column Name", "Target Table Name",
         "Target Column Name", "Order By", "Partition By", "Is Business Key",
         "Data Type", "Default Value", "Transformation Function"])] :
      Option (List String)) =
    some ["Source Table Name", "Source Column Name", "Target Table Name",
      "Target Column Name"] from rfl]
  rw [bind_ok, hmiss, if_pos rfl, hclean, hst]
  simp only [resolveTables, hgen, bind_err]

def c10_wit_file : MappingFile :=
  ⟨["Source Table Name", "Source Column Name", "Target Table Name",
    "Target Column Name"], [c10_row_src]⟩

/-- C10 witness: the amended theorem applied to a one-row landing-zone
specification whose source table is the non-empty string `S`. -/
theorem c10_landing_zone_resolution_fails_witness :
    validate_mapping_file c10_world c10_wit_file "landing-zone" =
      Except.error (VError.invalidTargetArea "landing-zone") :=
  c10_landing_zone_resolution_fails c10_world c10_wit_file
    (by decide)
    (fun r hr => by
      have h1 : r = c10_row_src := List.mem_singleton.mp hr
      subst h1
      exact ⟨"S", rfl⟩)
    ⟨c10_row_src, List.mem_singleton.mpr rfl, by decide⟩

theorem processRow_unusable {hs : List String} {d : SchemaDict} {r : Row} {tc : String}
    (htc : r.targetColumn = Cell.str tc) (hsrc : usableSource r = false) :
    processRow hs d r = processRowTf hs (pyStrip tc)
      (if "Data Type" ∈ hs then stripped_data_type r.dataType else "string") r := by
  cases hsc : r.sourceColumn with
  | str sc =>
    cases hst : r.sourceTable with
    | str st =>
      have hP : ¬(pyStrip sc ≠ "" ∧ pyStrip st ≠ "") := by
        unfold usableSource at hsrc
        rw [hsc, hst] at hsrc
        exact of_decide_eq_false hsrc
      simp only [processRow, htc, hsc, hst, bind_ok]
      rw [if_neg hP]
    | nullV => simp only [processRow, htc, hsc, hst, bind_ok]
    | floatV n => simp only [processRow, htc, hsc, hst, bind_ok]
  | nullV =>
    cases hst : r.sourceTable <;> simp only [processRow, htc, hsc, hst, bind_ok]
  | floatV n =>
    cases hst : r.sourceTable <;> simp only [processRow, htc, hsc, hst, bind_ok]

theorem processRow_skip {hs : List String} {d : SchemaDict} {r : Row} {tc : String}
    (hhs : "Transformation Function" ∈ hs)
    (htc : r.targetColumn = Cell.str tc) (hsrc : usableSource r = false)
    (hparse : r.tf = some none) :
    processRow hs d r = Except.ok none := by
  rw [processRow_unusable htc hsrc]
  unfold processRowTf
  rw [if_pos hhs, hparse]

theorem processRows_skip {hs : List String} {d : SchemaDict} {rbad : Row}
    (hskip : processRow hs d rbad = Except.ok none) :
    ∀ (pre post : List Row),
      processRows hs d (pre ++ rbad :: post) = processRows hs d (pre ++ post)
  | [], post => by
    simp only [List.nil_append, processRows, hskip, bind_ok]
    cases hpost : processRows hs d post with
    | error e => rfl
    | ok rest => rfl
  | r :: pre, post => by
    simp only [List.cons_append, processRows, List.append_eq]
    rw [processRows_skip hskip pre post]

/-- C9: in `generate_mapping_config`, a row with no usable source
table/column whose `Transformation Function` parses as a JSON object yields a
column mapping whose `source` is the parsed object with `type: "string"`
added (the declared-type default is kept), with no failure; and a row whose
`Transformation Function` fails to parse is skipped (`continue`), the
remaining rows of the table being processed exactly as without it. -/
theorem c9_transformation_rows (hs : List String) (d : SchemaDict) (r rbad : Row)
    (pre post : List Row) (tc tcb : String) (fs : List (String × Json))
    (hhs : "Transformation Function" ∈ hs)
    (htc : r.targetColumn = Cell.str tc) (hsrc : usableSource r = false)
    (hparse : r.tf = some (some (Json.obj fs)))
    (htcb : rbad.targetColumn = Cell.str tcb) (hsrcb : usableSource rbad = false)
    (hparseb : rbad.tf = some none) :
    processRow hs d r = Except.ok (some ⟨pyStrip tc,
        (if "Data Type" ∈ hs then stripped_data_type r.dataType else "string"),
        Json.obj (jsetField fs "type" (Json.str "string"))⟩)
    ∧ processRows hs d (pre ++ rbad :: post) = processRows hs d (pre ++ post) := by
  constructor
  · rw [processRow_unusable htc hsrc]
    unfold processRowTf
    rw [if_pos hhs, hparse]
  · exact processRows_skip (processRow_skip hhs htcb hsrcb hparseb) pre post

def c9_row_tf : Row :=
  ⟨Cell.nullV, Cell.nullV, Cell.str "T", Cell.str "C", Cell.nullV, none, none,
   Cell.nullV, some (some (Json.obj [("function", Json.str "const")]))⟩

def c9_row_bad : Row :=
  ⟨Cell.nullV, Cell.nullV, Cell.str "T", Cell.str "C2", Cell.nullV, none, none,
   Cell.nullV, some none⟩

/-- C9 witness: the theorem applied to a concrete parsing row and a concrete
non-parsing row. -/
theorem c9_transformation_rows_witness :
    processRow ["Transformation Function", "Data Type"] [] c9_row_tf =
      Except.ok (some ⟨"C", "string",
        Json.obj [("function", Json.str "const"), ("type", Json.str "string")]⟩)
    ∧ processRows ["Transformation Function", "Data Type"] [] [c9_row_bad, c9_row_tf] =
        processRows ["Transformation Function", "Data Type"] [] [c9_row_tf] := by
  have h := c9_transformation_rows ["Transformation Function", "Data Type"] []
    c9_row_tf c9_row_bad [] [c9_row_tf] "C" "C2" [("function", Json.str "const")]
    (by decide) rfl rfl rfl rfl rfl rfl
  exact ⟨h.1, h.2⟩

theorem build_mapping_tables_mem {tda : String} {d : SchemaDict} {f : MappingFile} :
    ∀ {ts : List String} {out : List (String × MappingTable)} {t : String}
      {mt : MappingTable},
      build_mapping_tables tda d f ts = Except.ok out → (t, mt) ∈ out →
      build_mapping_table tda d f t = Except.ok mt
  | [], out, t, mt, hok, hmem => by
    simp only [build_mapping_tables, Except.ok.injEq] at hok
    subst hok
    simp at hmem
  | t2 :: ts, out, t, mt, hok, hmem => by
    cases hb : build_mapping_table tda d f t2 with
    | error e =>
      simp only [build_mapping_tables, hb, bind_err] at hok
      exact Except.noConfusion hok
    | ok v =>
      cases hr : build_mapping_tables tda d f ts with
      | error e =>
        simp only [build_mapping_tables, hb, hr, bind_ok, bind_err] at hok
        exact Except.noConfusion hok
      | ok rest =>
        simp only [build_mapping_tables, hb, hr, bind_ok, Except.ok.injEq] at hok
        subst hok
        rcases List.mem_cons.mp hmem with heq | hmem2
        · obtain ⟨rfl, rfl⟩ := Prod.mk.inj heq
          exact hb
        · exact build_mapping_tables_mem hr hmem2

theorem build_mapping_table_head {tda : String} {d : SchemaDict} {f : MappingFile}
    {t : String} {mt : MappingTable} (hbk : "Is Business Key" ∈ f.headers)
    (hok : build_mapping_table tda d f t = Except.ok mt) :
    mt.columns.head? = some (merge_key_column (business_key_cols f t)) := by
  unfold build_mapping_table at hok
  cases hl : TARGET_SOURCE_AREA_MAP.lookup tda with
  | none =>
    simp only [hl, bind_err] at hok
    exact Except.noConfusion hok
  | some sda =>
    cases hpr : processRows f.headers d (rows_for_target f t) with
    | error e =>
      simp only [hl, hpr, bind_ok, bind_err] at hok
      exact Except.noConfusion hok
    | ok rowCols =>
      simp only [hl, hpr, bind_ok, if_pos hbk, List.singleton_append,
        Except.ok.injEq] at hok
      subst hok
      rfl

/-- C3 (amended): whenever the mapping specification has an `Is Business Key`
column, every per-table mapping configuration produced by
`generate_mapping_config` begins with the synthetic `MergeKey` column built
from the affirmatively marked target columns of that table in row order —
regardless of whether any row is actually marked (when none is, the
`column_names` parameter list is simply empty). -/
theorem c3_mergekey_always_prepended (tda : String) (d : SchemaDict)
    (f : MappingFile) (out : List (String × MappingTable)) (t : String)
    (mt : MappingTable) (hbk : "Is Business Key" ∈ f.headers)
    (hok : generate_mapping_config tda d f = Except.ok out)
    (hmem : (t, mt) ∈ out) :
    mt.columns.head? = some (merge_key_column (business_key_cols f t)) :=
  build_mapping_table_head hbk (build_mapping_tables_mem hok hmem)

def c3_schemas : SchemaDict := [("S", [⟨"c1", "int"⟩])]

/-- A single row whose business-key indicator `n` is not affirmative. -/
def c3_row : Row :=
  ⟨Cell.str "S", Cell.str "c1", Cell.str "T", Cell.str "C", Cell.nullV,
   none, none, Cell.str "n", none⟩

def c3_file : MappingFile :=
  ⟨["Source Table Name", "Source Column Name", "Target Table Name",
    "Target Column Name", "Order By", "Partition By", "Is Business Key",
    "Data Type", "Default Value", "Transformation Function"], [c3_row]⟩

/-- C3 counterexample: no row of target table `T` is marked affirmatively,
yet the generated mapping for `T` still begins with a `MergeKey` column (with
an empty `column_names` parameter list): the code assigns the `MergeKey`
prepend unconditionally whenever the `Is Business Key` header exists. -/
theorem c3_counterexample_no_affirmative_row :
    business_key_cols c3_file "T" = []
    ∧ generate_mapping_config "bronze" c3_schemas c3_file =
      Except.ok [("T", ⟨"T", "landing-zone", "bronze",
        [merge_key_column [],
         ⟨"C", "integer",
          Json.obj [("name", Json.str "c1"), ("type", Json.str "integer")]⟩]⟩)] :=
  ⟨by decide, rfl⟩

/-- A row marked affirmatively with `Y`. -/
def c3_wit_row : Row :=
  ⟨Cell.str "S", Cell.str "c1", Cell.str "T", Cell.str "C", Cell.nullV,
   none, none, Cell.str "Y", none⟩

def c3_wit_file : MappingFile := ⟨c3_file.headers, [c3_wit_row]⟩

/-- C3 witness: the amended theorem applied to a table with one
affirmatively marked row. -/
theorem c3_mergekey_always_prepended_witness :
    (⟨"T", "landing-zone", "bronze",
      [merge_key_column ["C"],
       ⟨"C", "integer",
        Json.obj [("name", Json.str "c1"), ("type", Json.str "integer")]⟩]⟩ :
      MappingTable).columns.head? =
    some (merge_key_column (business_key_cols c3_wit_file "T")) :=
  c3_mergekey_always_prepended "bronze" c3_schemas c3_wit_file _ "T" _
    (by decide) rfl (List.mem_singleton.mpr rfl)

theorem insertPy_keys_nodup {α : Type} {m : List (String × α)} {k : String} {v : α}
    (h : (m.map Prod.fst).Nodup) : ((insertPy m k v).map Prod.fst).Nodup := by
  unfold insertPy
  split
  · rw [List.map_map]
    have heq : m.map (Prod.fst ∘ fun p => if p.1 = k then (k, v) else p) =
        m.map Prod.fst := by
      apply List.map_congr_left
      intro p _
      by_cases hpk : p.1 = k
      · simp only [Function.comp_apply, if_pos hpk]
        exact hpk.symm
      · simp only [Function.comp_apply, if_neg hpk]
    rw [heq]
    exact h
  · rename_i hany
    rw [List.map_append]
    have hk : k ∉ m.map Prod.fst := by
      intro hkm
      obtain ⟨p, hp, hpk⟩ := List.mem_map.mp hkm
      exact hany (List.any_eq_true.mpr ⟨p, hp, by simp [hpk]⟩)
    rw [List.nodup_append]
    refine ⟨h, List.nodup_singleton k, ?_⟩
    intro a ha hb
    simp only [List.map_cons, List.map_nil, List.mem_singleton] at hb
    subst hb
    exact hk ha

theorem mem_insertPy {α : Type} {m : List (String × α)} {k : String} {v : α}
    {p : String × α} (h : p ∈ insertPy m k v) : p ∈ m ∨ p = (k, v) := by
  unfold insertPy at h
  split at h
  · obtain ⟨q, hq, hqe⟩ := List.mem_map.mp h
    by_cases hqk : q.1 = k
    · rw [if_pos hqk] at hqe
      exact Or.inr hqe.symm
    · rw [if_neg hqk] at hqe
      exact Or.inl (hqe ▸ hq)
  · rcases List.mem_append.mp h with h1 | h1
    · exact Or.inl h1
    · exact Or.inr (List.mem_singleton.mp h1)

theorem build_pipeline_invariant {tda : String} :
    ∀ (ps : List (Cell × Cell)) (acc out : List (String × PipelineLinkage)),
      (acc.map Prod.fst).Nodup →
      (∀ p, p ∈ acc → p.2.target_table_name = p.1) →
      build_pipeline tda acc ps = Except.ok out →
      (out.map Prod.fst).Nodup ∧ ∀ p, p ∈ out → p.2.target_table_name = p.1
  | [], acc, out, h1, h2, hok => by
    simp only [build_pipeline, Except.ok.injEq] at hok
    subst hok
    exact ⟨h1, h2⟩
  | q :: ps, acc, out, h1, h2, hok => by
    cases hs : cleanse1 q.1 with
    | error e =>
      simp only [build_pipeline, hs, bind_err] at hok
      exact Except.noConfusion hok
    | ok s1 =>
      cases ht : cleanse1 q.2 with
      | error e =>
        simp only [build_pipeline, hs, ht, bind_ok, bind_err] at hok
        exact Except.noConfusion hok
      | ok t1 =>
        cases hl : TARGET_SOURCE_AREA_MAP.lookup tda with
        | none =>
          simp only [build_pipeline, hs, ht, hl, bind_ok, bind_err] at hok
          exact Except.noConfusion hok
        | some sda =>
          have hok2 : build_pipeline tda (insertPy acc t1 ⟨sda, s1, tda, t1⟩) ps =
              Except.ok out := by
            simpa only [build_pipeline, hs, ht, hl, bind_ok] using hok
          refine build_pipeline_invariant ps _ out (insertPy_keys_nodup h1) ?_ hok2
          intro p hp
          rcases mem_insertPy hp with hin | rfl
          · exact h2 p hin
          · rfl

/-- C4 (amended): `generate_pipeline_config` emits exactly one
`PipelineLinkage` per distinct cleansed TARGET-table name, not per
(source table, target table) pair: the configuration dict is keyed by the
target name alone, so of several pairs sharing a target only the last
processed pair's source survives. -/
theorem c4_one_linkage_per_target (tda : String) (f : MappingFile)
    (out : List (String × PipelineLinkage))
    (hok : generate_pipeline_config tda f = Except.ok out) :
    (out.map Prod.fst).Nodup ∧ ∀ p, p ∈ out → p.2.target_table_name = p.1 :=
  build_pipeline_invariant (pipeline_pairs f) [] out List.nodup_nil
    (fun p hp => absurd hp (List.not_mem_nil p)) hok

def c4_row1 : Row :=
  ⟨Cell.str "S1", Cell.str "c1", Cell.str "T", Cell.str "C1", Cell.nullV,
   none, none, Cell.nullV, none⟩

def c4_row2 : Row :=
  ⟨Cell.str "S2", Cell.str "c2", Cell.str "T", Cell.str "C2", Cell.nullV,
   none, none, Cell.nullV, none⟩

def c4_file : MappingFile :=
  ⟨["Source Table Name", "Source Column Name", "Target Table Name",
    "Target Column Name", "Order By", "Partition By", "Is Business Key",
    "Data Type", "Default Value", "Transformation Function"],
   [c4_row1, c4_row2]⟩

/-- C4 counterexample: two rows map the two distinct source tables `S1` and
`S2` to the same target table `T`.  The claim demands two distinct linkages;
the code produces exactly one — keyed by `T`, with the later source `S2`
having overwritten `S1`. -/
theorem c4_counterexample_two_sources_one_target :
    generate_pipeline_config "bronze" c4_file =
      Except.ok [("T", ⟨"landing-zone", "S2", "bronze", "T"⟩)] := rfl

/-- C4 witness: the amended theorem applied to the two-pair input. -/
theorem c4_one_linkage_per_target_witness :
    (["T"] : List String).Nodup
    ∧ (⟨"landing-zone", "S2", "bronze", "T"⟩ : PipelineLinkage).target_table_name =
        "T" :=
  ⟨(c4_one_linkage_per_target "bronze" c4_file
      [("T", ⟨"landing-zone", "S2", "bronze", "T"⟩)] rfl).1,
   (c4_one_linkage_per_target "bronze" c4_file
      [("T", ⟨"landing-zone", "S2", "bronze", "T"⟩)] rfl).2
     ("T", ⟨"landing-zone", "S2", "bronze", "T"⟩) (List.mem_singleton.mpr rfl)⟩

theorem build_target_schema_null_src {tda : String} {d : SchemaDict}
    {audit : List SchemaCol} {f : MappingFile} {t : String}
    (h : assoc_source_cell f t = some Cell.nullV) :
    build_target_schema tda d audit f t =
      Except.error "KeyError: non-string source table value" := by
  unfold build_target_schema
  rw [h]
  exact rfl

theorem build_target_schemas_not_ok {tda : String} {d : SchemaDict}
    {audit : List SchemaCol} {f : MappingFile} {t : String} {e : String}
    (hb : build_target_schema tda d audit f t = Except.error e) :
    ∀ (ts : List String), t ∈ ts →
      isOkE (build_target_schemas tda d audit f ts) = false
  | [], hmem => absurd hmem (List.not_mem_nil t)
  | t2 :: ts, hmem => by
    cases hb2 : build_target_schema tda d audit f t2 with
    | error e2 => simp [build_target_schemas, hb2, bind_err, isOkE]
    | ok v =>
      have ht : t ∈ ts := by
        rcases List.mem_cons.mp hmem with rfl | h2
        · rw [hb] at hb2
          exact Except.noConfusion hb2
        · exact h2
      cases hr : build_target_schemas tda d audit f ts with
      | error e2 => simp [build_target_schemas, hb2, hr, bind_ok, bind_err, isOkE]
      | ok rest =>
        have hko := build_target_schemas_not_ok hb ts ht
        rw [hr] at hko
        simp [isOkE] at hko

/-- C5 (amended): for each distinct target table,
`generate_target_schema_config` takes as the associated source table the
FIRST raw source-table value among the table's rows — `unique()[0]`, null
included — not the first non-null value; when that first value is null the
schema-dictionary lookup fails and the whole generation errors instead of
falling back to a later non-null source table. -/
theorem c5_first_raw_source_value (tda : String) (d : SchemaDict)
    (audit : List SchemaCol) (f : MappingFile) (t : String)
    (hmem : t ∈ target_tables f)
    (hnull : assoc_source_cell f t = some Cell.nullV) :
    assoc_source_cell f t = ((rows_for_target f t).map (·.sourceTable)).head?
    ∧ isOkE (generate_target_schema_config tda d audit f) = false :=
  ⟨dedupF_head? _,
   build_target_schemas_not_ok (build_target_schema_null_src hnull)
     (target_tables f) hmem⟩

def c5_row_null : Row :=
  ⟨Cell.nullV, Cell.nullV, Cell.str "T", Cell.str "C1", Cell.nullV,
   none, none, Cell.nullV, none⟩

def c5_row_s : Row :=
  ⟨Cell.str "S", Cell.str "c1", Cell.str "T", Cell.str "C2", Cell.nullV,
   none, none, Cell.nullV, none⟩

def c5_file : MappingFile :=
  ⟨["Source Table Name", "Source Column Name", "Target Table Name",
    "Target Column Name", "Order By", "Partition By", "Is Business Key",
    "Data Type", "Default Value", "Transformation Function"],
   [c5_row_null, c5_row_s]⟩

def c5_schemas : SchemaDict := [("S", [⟨"c1", "int"⟩])]

/-- C5 counterexample: the first row of target table `T` has a null source
table and the second names `S`, whose schema is resolved.  The claim says the
generator uses the first NON-null value `S`; the code instead takes
`unique()[0]` — the null — so the schema lookup raises and generation fails
although `S` was available. -/
theorem c5_counterexample_null_first :
    assoc_source_cell c5_file "T" = some Cell.nullV
    ∧ c5_schemas.lookup "S" = some [⟨"c1", "int"⟩]
    ∧ generate_target_schema_config "silver" c5_schemas [] c5_file =
        Except.error "KeyError: non-string source table value" :=
  ⟨rfl, rfl, rfl⟩

/-- C5 witness: the amended theorem applied to the null-first input. -/
theorem c5_first_raw_source_value_witness :
    assoc_source_cell c5_file "T" =
      ((rows_for_target c5_file "T").map (·.sourceTable)).head?
    ∧ isOkE (generate_target_schema_config "silver" c5_schemas [] c5_file) =
        false :=
  c5_first_raw_source_value "silver" c5_schemas [] c5_file "T"
    (by decide) (by decide)

theorem target_schema_row_name {schema : List SchemaCol} {r : Row} {c : SchemaCol}
    (hok : target_schema_row schema r = Except.ok c) :
    cleanse1 r.targetColumn = Except.ok c.name := by
  unfold target_schema_row at hok
  cases hc : cleanse1 r.targetColumn with
  | error e =>
    simp only [hc, bind_err] at hok
    exact Except.noConfusion hok
  | ok name =>
    simp only [hc, bind_ok] at hok
    by_cases hna : isNA r.sourceColumn = true
    · rw [if_pos hna] at hok
      simp only [Except.ok.injEq] at hok
      subst hok
      rfl
    · rw [if_neg hna] at hok
      cases hc2 : cleanse1 r.sourceColumn with
      | error e =>
        simp only [hc2, bind_err] at hok
        exact Except.noConfusion hok
      | ok scn =>
        simp only [hc2, bind_ok] at hok
        cases hh : (schema.filter (fun c2 => decide (c2.name = scn))).head? with
        | none =>
          simp only [hh] at hok
          exact Except.noConfusion hok
        | some c2 =>
          simp only [hh, Except.ok.injEq] at hok
          subst hok
          rfl

theorem target_schema_rows_names {schema : List SchemaCol} :
    ∀ {rows : List Row} {cols : List SchemaCol},
      target_schema_rows schema rows = Except.ok cols →
      ∀ c, c ∈ cols → ∃ r, r ∈ rows ∧ cleanse1 r.targetColumn = Except.ok c.name
  | [], cols, hok, c, hc => by
    simp only [target_schema_rows, Except.ok.injEq] at hok
    subst hok
    simp at hc
  | r :: rows, cols, hok, c, hc => by
    cases h1 : target_schema_row schema r with
    | error e =>
      simp only [target_schema_rows, h1, bind_err] at hok
      exact Except.noConfusion hok
    | ok c1 =>
      cases h2 : target_schema_rows schema rows with
      | error e =>
        simp only [target_schema_rows, h1, h2, bind_ok, bind_err] at hok
        exact Except.noConfusion hok
      | ok rest =>
        simp only [target_schema_rows, h1, h2, bind_ok, Except.ok.injEq] at hok
        subst hok
        rcases List.mem_cons.mp hc with rfl | hc2
        · exact ⟨r, List.mem_cons_self r rows, target_schema_row_name h1⟩
        · obtain ⟨r2, hr2, hn⟩ := target_schema_rows_names h2 c hc2
          exact ⟨r2, List.mem_cons_of_mem r hr2, hn⟩

theorem build_target_schemas_mem {tda : String} {d : SchemaDict}
    {audit : List SchemaCol} {f : MappingFile} :
    ∀ {ts : List String} {out : List (String × TargetSchema)} {t : String}
      {v : TargetSchema},
      build_target_schemas tda d audit f ts = Except.ok out → (t, v) ∈ out →
      build_target_schema tda d audit f t = Except.ok v
  | [], out, t, v, hok, hmem => by
    simp only [build_target_schemas, Except.ok.injEq] at hok
    subst hok
    simp at hmem
  | t2 :: ts, out, t, v, hok, hmem => by
    cases hb : build_target_schema tda d audit f t2 with
    | error e =>
      simp only [build_target_schemas, hb, bind_err] at hok
      exact Except.noConfusion hok
    | ok v2 =>
      cases hr : build_target_schemas tda d audit f ts with
      | error e =>
        simp only [build_target_schemas, hb, hr, bind_ok, bind_err] at hok
        exact Except.noConfusion hok
      | ok rest =>
        simp only [build_target_schemas, hb, hr, bind_ok, Except.ok.injEq] at hok
        subst hok
        rcases List.mem_cons.mp hmem with heq | hmem2
        · obtain ⟨rfl, rfl⟩ := Prod.mk.inj heq
          exact hb
        · exact build_target_schemas_mem hr hmem2

theorem build_target_schema_silver_gold {tda : String} {d : SchemaDict}
    {audit : List SchemaCol} {f : MappingFile} {t : String} {ts : TargetSchema}
    (htda : tda = "silver" ∨ tda = "gold")
    (hok : build_target_schema tda d audit f t = Except.ok ts) :
    ts.columns.head? = some ⟨"MergeKey", "string"⟩
    ∧ ts.sort_columns.getLast? = some "MergeKey"
    ∧ ((∀ r, r ∈ f.rows → cleanse1 r.targetColumn ≠ Except.ok "MergeKey") →
       (∀ a, a ∈ audit → a.name ≠ "MergeKey") →
       (ts.columns.filter (fun c => decide (c.name = "MergeKey"))).length = 1) := by
  unfold build_target_schema at hok
  cases ha : assoc_source_cell f t with
  | none =>
    simp only [ha, bind_err] at hok
    exact Except.noConfusion hok
  | some srcCell =>
    cases srcCell with
    | nullV =>
      simp only [ha, bind_ok, bind_err] at hok
      exact Except.noConfusion hok
    | floatV n =>
      simp only [ha, bind_ok, bind_err] at hok
      exact Except.noConfusion hok
    | str s =>
      cases hl : d.lookup s with
      | none =>
        simp only [ha, hl, bind_ok, bind_err] at hok
        exact Except.noConfusion hok
      | some schema =>
        cases hrows : target_schema_rows schema (rows_for_target f t) with
        | error e =>
          simp only [ha, hl, hrows, bind_ok, bind_err] at hok
          exact Except.noConfusion hok
        | ok rowCols =>
          simp only [ha, hl, hrows, bind_ok, if_pos htda, Except.ok.injEq] at hok
          subst hok
          refine ⟨rfl, List.getLast?_concat _, ?_⟩
          intro hnames haudit
          have hrow0 : (rowCols.filter
              (fun c => decide (c.name = "MergeKey"))) = [] := by
            rw [List.filter_eq_nil_iff]
            intro c hc
            obtain ⟨r, hr, hn⟩ := target_schema_rows_names hrows c hc
            have hrf : r ∈ f.rows := List.mem_of_mem_filter hr
            simp only [decide_eq_true_eq]
            intro hcn
            exact hnames r hrf (hcn ▸ hn)
          have haud0 : (audit.filter (fun c => decide (c.name = "MergeKey"))) = [] := by
            rw [List.filter_eq_nil_iff]
            intro c hc
            simp only [decide_eq_true_eq]
            exact haudit c hc
          simp only [List.singleton_append, List.filter_append, List.filter_cons,
            hrow0, haud0]
          simp

theorem build_target_schema_ingest {tda : String} {d : SchemaDict}
    {audit : List SchemaCol} {f : MappingFile} {t : String} {ts : TargetSchema}
    (htda : ¬(tda = "silver" ∨ tda = "gold"))
    (hok : build_target_schema tda d audit f t = Except.ok ts) :
    ts.partition_columns.getLast? = some "IngestDate" := by
  unfold build_target_schema at hok
  cases ha : assoc_source_cell f t with
  | none =>
    simp only [ha, bind_err] at hok
    exact Except.noConfusion hok
  | some srcCell =>
    cases srcCell with
    | nullV =>
      simp only [ha, bind_ok, bind_err] at hok
      exact Except.noConfusion hok
    | floatV n =>
      simp only [ha, bind_ok, bind_err] at hok
      exact Except.noConfusion hok
    | str s =>
      cases hl : d.lookup s with
      | none =>
        simp only [ha, hl, bind_ok, bind_err] at hok
        exact Except.noConfusion hok
      | some schema =>
        cases hrows : target_schema_rows schema (rows_for_target f t) with
        | error e =>
          simp only [ha, hl, hrows, bind_ok, bind_err] at hok
          exact Except.noConfusion hok
        | ok rowCols =>
          simp only [ha, hl, hrows, bind_ok, if_neg htda, Except.ok.injEq] at hok
          subst hok
          exact List.getLast?_concat _

/-- C8 (amended): for tiers silver/gold every generated target schema has the
synthetic `MergeKey` string column as its FIRST column (and exactly one
`MergeKey` column provided no mapping row's cleansed target column and no
audit column is itself named `MergeKey` — a row named `MergeKey` yields a
second one), and `sort_columns` ends with `MergeKey`; for every other tier
(in particular landing-zone and bronze) `partition_columns` ends with
`IngestDate`. -/
theorem c8_target_schema_tier_columns (tda : String) (d : SchemaDict)
    (audit : List SchemaCol) (f : MappingFile)
    (out : List (String × TargetSchema)) (t : String) (ts : TargetSchema)
    (hok : generate_target_schema_config tda d audit f = Except.ok out)
    (hmem : (t, ts) ∈ out) :
    ((tda = "silver" ∨ tda = "gold") →
      ts.columns.head? = some ⟨"MergeKey", "string"⟩
      ∧ ts.sort_columns.getLast? = some "MergeKey"
      ∧ ((∀ r, r ∈ f.rows → cleanse1 r.targetColumn ≠ Except.ok "MergeKey") →
         (∀ a, a ∈ audit → a.name ≠ "MergeKey") →
         (ts.columns.filter (fun c => decide (c.name = "MergeKey"))).length = 1))
    ∧ ((tda = "landing-zone" ∨ tda = "bronze") →
      ts.partition_columns.getLast? = some "IngestDate") := by
  have hb := build_target_schemas_mem hok hmem
  constructor
  · intro htda
    exact build_target_schema_silver_gold htda hb
  · intro htda
    refine build_target_schema_ingest ?_ hb
    rcases htda with rfl | rfl <;> decide

/-- A row whose target column is literally named `MergeKey`. -/
def c8_row : Row :=
  ⟨Cell.str "S", Cell.nullV, Cell.str "T", Cell.str "MergeKey", Cell.nullV,
   none, none, Cell.nullV, none⟩

def c8_file : MappingFile :=
  ⟨["Source Table Name", "Source Column Name", "Target Table Name",
    "Target Column Name", "Order By", "Partition By", "Is Business Key",
    "Data Type", "Default Value", "Transformation Function"], [c8_row]⟩

/-- C8 counterexample: on tier silver, a mapping row whose target column is
itself named `MergeKey` makes the generated schema contain TWO `MergeKey`
columns (the synthetic one plus the row's), refuting "exactly one MergeKey
column" as claimed. -/
theorem c8_counterexample_duplicate_mergekey :
    generate_target_schema_config "silver" [("S", [])] [] c8_file =
      Except.ok [("T", ⟨"T", ["MergeKey"], [],
        [⟨"MergeKey", "string"⟩, ⟨"MergeKey", "string"⟩]⟩)]
    ∧ (([⟨"MergeKey", "string"⟩, ⟨"MergeKey", "string"⟩] : List SchemaCol).filter
        (fun c => decide (c.name = "MergeKey"))).length = 2 :=
  ⟨rfl, by decide⟩

/-- A silver-tier row with an ordinary target column name. -/
def c8_wit_row : Row :=
  ⟨Cell.str "S", Cell.nullV, Cell.str "T", Cell.str "Id", Cell.nullV,
   none, none, Cell.nullV, none⟩

def c8_wit_file : MappingFile := ⟨c8_file.headers, [c8_wit_row]⟩

/-- C8 witness: the amended theorem applied to a concrete silver-tier run
whose single row is named `Id`. -/
theorem c8_target_schema_tier_columns_witness :
    (⟨"T", ["MergeKey"], [], [⟨"MergeKey", "string"⟩, ⟨"Id", "string"⟩]⟩ :
        TargetSchema).columns.head? = some ⟨"MergeKey", "string"⟩
    ∧ (⟨"T", ["MergeKey"], [], [⟨"MergeKey", "string"⟩, ⟨"Id", "string"⟩]⟩ :
        TargetSchema).sort_columns.getLast? = some "MergeKey"
    ∧ ((⟨"T", ["MergeKey"], [], [⟨"MergeKey", "string"⟩, ⟨"Id", "string"⟩]⟩ :
        TargetSchema).columns.filter
          (fun c => decide (c.name = "MergeKey"))).length = 1 := by
  have h := (c8_target_schema_tier_columns "silver" [("S", [])] [] c8_wit_file
      [("T", ⟨"T", ["MergeKey"], [], [⟨"MergeKey", "string"⟩, ⟨"Id", "string"⟩]⟩)]
      "T" ⟨"T", ["MergeKey"], [], [⟨"MergeKey", "string"⟩, ⟨"Id", "string"⟩]⟩
      rfl (List.mem_singleton.mpr rfl)).1 (Or.inl rfl)
  refine ⟨h.1, h.2.1, h.2.2 ?_ ?_⟩
  · intro r hr
    have h1 : r = c8_wit_row := List.mem_singleton.mp hr
    subst h1
    intro hcon
    exact absurd (Except.ok.inj hcon) (by decide)
  · intro a ha
    exact absurd ha (List.not_mem_nil a)

end OpenMapping
